import Mathlib

/-!
Verification of the CRT document pipeline of the `convertidor-documentos`
repository.  The TypeScript functions `extraerDatosCRT`,
`bestEffortValidationCRT`, `generarExcel` and `procesarPDFCRT` are embedded
as executable Lean functions over `List Char` / `String`; the JavaScript
regular expressions they use are implemented as dedicated deterministic
scanners (each one is equivalent to the backtracking search of the concrete
pattern because adjacent character classes in every pattern are disjoint).
The batch scheduler / progress reporter lives in the Python service, whose
code is not part of this source tree; it is modelled from the specification.
-/

namespace Crt

/-- JavaScript `\d` character class: the ASCII digits `0`-`9`. -/
def isDigitB (c : Char) : Bool := decide (48 ≤ c.toNat ∧ c.toNat ≤ 57)

/-- ASCII upper-case letter `A`-`Z`. -/
def isUpperB (c : Char) : Bool := decide (65 ≤ c.toNat ∧ c.toNat ≤ 90)

/-- ASCII lower-case letter `a`-`z`. -/
def isLowerB (c : Char) : Bool := decide (97 ≤ c.toNat ∧ c.toNat ≤ 122)

/-- Upper-case accented letters appearing in the class `[A-ZÁÉÍÓÚÑ]`:
Á (193), É (201), Í (205), Ñ (209), Ó (211), Ú (218). -/
def isUpperAccentB (c : Char) : Bool :=
  decide (c.toNat = 193 ∨ c.toNat = 201 ∨ c.toNat = 205 ∨ c.toNat = 209 ∨
          c.toNat = 211 ∨ c.toNat = 218)

/-- Lower-case counterparts á (225), é (233), í (237), ñ (241), ó (243), ú (250). -/
def isLowerAccentB (c : Char) : Bool :=
  decide (c.toNat = 225 ∨ c.toNat = 233 ∨ c.toNat = 237 ∨ c.toNat = 241 ∨
          c.toNat = 243 ∨ c.toNat = 250)

/-- The class `[A-ZÁÉÍÓÚÑ]` of a case-sensitive pattern (no `i` flag). -/
def crtLetterCS (c : Char) : Bool := isUpperB c || isUpperAccentB c

/-- The class `[A-ZÁÉÍÓÚÑ]` under the `i` flag (also matches the lower-case forms). -/
def crtLetterCI (c : Char) : Bool := crtLetterCS c || isLowerB c || isLowerAccentB c

/-- The class `[A-Z0-9]` of a case-sensitive pattern. -/
def alnumCS (c : Char) : Bool := isUpperB c || isDigitB c

/-- The class `[A-Z0-9]` under the `i` flag. -/
def alnumCI (c : Char) : Bool := alnumCS c || isLowerB c

/-- The class `[A-Z0-9-]` under the `i` flag (used by the `PLANTA` pattern). -/
def plantaCharCI (c : Char) : Bool := alnumCI c || c == '-'

/-- JavaScript `\s`: TAB LF VT FF CR SP NBSP U+1680 U+2000-U+200A U+2028 U+2029
U+202F U+205F U+3000 U+FEFF. -/
def isJsSpaceB (c : Char) : Bool :=
  decide (c.toNat = 9 ∨ c.toNat = 10 ∨ c.toNat = 11 ∨ c.toNat = 12 ∨
          c.toNat = 13 ∨ c.toNat = 32 ∨ c.toNat = 160 ∨ c.toNat = 5760 ∨
          (8192 ≤ c.toNat ∧ c.toNat ≤ 8202) ∨ c.toNat = 8232 ∨
          c.toNat = 8233 ∨ c.toNat = 8239 ∨ c.toNat = 8287 ∨
          c.toNat = 12288 ∨ c.toNat = 65279)

/-- JavaScript `.` (without the `s` flag): any character except the line
terminators LF, CR, U+2028, U+2029. -/
def dotCharB (c : Char) : Bool :=
  !(decide (c.toNat = 10 ∨ c.toNat = 13 ∨ c.toNat = 8232 ∨ c.toNat = 8233))

/-- Simple case folding for the characters relevant to the patterns (the `i`
flag of the JavaScript regexes). -/
def foldChar (c : Char) : Char :=
  if isUpperB c then Char.ofNat (c.toNat + 32)
  else if isUpperAccentB c then Char.ofNat (c.toNat + 32)
  else c

/-- Case-insensitive character comparison. -/
def ciEq (a b : Char) : Bool := foldChar a == foldChar b

/-- `String.prototype.trim`: strip JavaScript whitespace/line terminators from
both ends. -/
def jsTrimL (l : List Char) : List Char :=
  ((l.dropWhile isJsSpaceB).reverse.dropWhile isJsSpaceB).reverse

/-- `trim` on strings. -/
def jsTrimS (s : String) : String := ⟨jsTrimL s.data⟩

/-- Match a literal (case-insensitively, all source patterns carry the `i`
flag); returns the rest of the input after the literal. -/
def matchLit : List Char → List Char → Option (List Char)
  | [], s => some s
  | _ :: _, [] => none
  | p :: ps, c :: cs => if ciEq p c then matchLit ps cs else none

/-- `\s*`: drop the maximal whitespace run. -/
def wsDrop (l : List Char) : List Char := l.dropWhile isJsSpaceB

/-- The maximal whitespace run itself (needed inside capture groups). -/
def wsTake (l : List Char) : List Char := l.takeWhile isJsSpaceB

/-- `\s+`: requires at least one whitespace character, consumes the maximal
run.  (In every source pattern the token following `\s+` is a letter or digit,
so the greedy run is the unique viable one.) -/
def ws1 : List Char → Option (List Char)
  | c :: cs => if isJsSpaceB c then some ((c :: cs).dropWhile isJsSpaceB) else none
  | [] => none

/-- One character drawn from an explicit class such as `[ÓO]` under `i`. -/
def charIn (cs : List Char) : List Char → Option (List Char)
  | c :: rest => if cs.contains c then some rest else none
  | [] => none

/-- Leftmost-match search: JavaScript `String.prototype.match` tries the
pattern at every position from the left and keeps the first success. -/
def searchFrom {α : Type} (attempt : List Char → Option α) : List Char → Option α
  | [] => attempt []
  | c :: cs =>
    match attempt (c :: cs) with
    | some v => some v
    | none => searchFrom attempt cs

/-- Attempt of `/FECHA REVISIÓN:\s*(\d{1,2}\s+[A-ZÁÉÍÓÚÑ]+\s+\d{4})/i` at one
position; returns the capture group.  `\d{1,2}` followed by `\s+` succeeds
exactly when the leading digit run has length 1 or 2. -/
def attemptFecha (s : List Char) : Option (List Char) :=
  match matchLit "FECHA REVISIÓN:".data s with
  | none => none
  | some r =>
    let r := wsDrop r
    let ds := r.takeWhile isDigitB
    let r1 := r.dropWhile isDigitB
    if ds.length == 1 || ds.length == 2 then
      let w1 := wsTake r1
      if w1.isEmpty then none else
      let r2 := wsDrop r1
      let ls := r2.takeWhile crtLetterCI
      if ls.isEmpty then none else
      let r3 := r2.dropWhile crtLetterCI
      let w2 := wsTake r3
      if w2.isEmpty then none else
      let r4 := wsDrop r3
      let ds2 := r4.takeWhile isDigitB
      if 4 ≤ ds2.length then some (ds ++ w1 ++ ls ++ w2 ++ ds2.take 4) else none
    else none

/-- Attempt of `/PLANTA:\s*([A-Z0-9-]+)/i`. -/
def attemptPlanta (s : List Char) : Option (List Char) :=
  match matchLit "PLANTA:".data s with
  | none => none
  | some r =>
    let r := wsDrop r
    let run := r.takeWhile plantaCharCI
    if run.isEmpty then none else some run

/-- Attempt of `/PLACA PATENTE\s+([A-Z0-9]+)/i`. -/
def attemptPlaca (s : List Char) : Option (List Char) :=
  match matchLit "PLACA PATENTE".data s with
  | none => none
  | some r =>
    match ws1 r with
    | none => none
    | some r2 =>
      let run := r2.takeWhile alnumCI
      if run.isEmpty then none else some run

/-- Attempt of `/(N°B\d+)/i`; the capture keeps the original characters. -/
def attemptFolioGrp : List Char → Option (List Char)
  | a :: b :: c :: rest =>
    if ciEq 'N' a && (b == '°') && ciEq 'B' c then
      let ds := rest.takeWhile isDigitB
      if ds.isEmpty then none else some (a :: b :: c :: ds)
    else none
  | _ => none

/-- `(?:DE\s+)?`: commits when both the literal and the following whitespace
match (the following alternatives all begin with a letter other than `D`, so
the non-consuming branch cannot succeed once this one does). -/
def matchOptDE (s : List Char) : List Char :=
  match matchLit "DE".data s with
  | some r =>
    match ws1 r with
    | some r2 => r2
    | none => s
  | none => s

/-- `(?:EMISIONES\s+)?`, same committing argument. -/
def matchOptEMI (s : List Char) : List Char :=
  match matchLit "EMISIONES".data s with
  | some r =>
    match ws1 r with
    | some r2 => r2
    | none => s
  | none => s

/-- Title `CERTIFICADO\s+(?:DE\s+)?REVISI[ÓO]N\s+T[EÉ]CNICA` (flag `i`). -/
def attemptRevTitle (s : List Char) : Option (List Char) := do
  let r1 ← matchLit "CERTIFICADO".data s
  let r2 ← ws1 r1
  let r3 := matchOptDE r2
  let r4 ← matchLit "REVISI".data r3
  let r5 ← charIn ['Ó', 'O', 'ó', 'o'] r4
  let r6 ← matchLit "N".data r5
  let r7 ← ws1 r6
  let r8 ← matchLit "T".data r7
  let r9 ← charIn ['E', 'É', 'e', 'é'] r8
  matchLit "CNICA".data r9

/-- Title `CERTIFICADO\s+(?:DE\s+)?(?:EMISIONES\s+)?CONTAMINANTES` (flag `i`). -/
def attemptContTitle (s : List Char) : Option (List Char) := do
  let r1 ← matchLit "CERTIFICADO".data s
  let r2 ← ws1 r1
  let r3 := matchOptDE r2
  let r4 := matchOptEMI r3
  matchLit "CONTAMINANTES".data r4

/-- The lookahead `(?=CERTIFICADO\s)` of the contaminantes section pattern. -/
def certSpaceAt (s : List Char) : Bool :=
  match matchLit "CERTIFICADO".data s with
  | some (c :: _) => isJsSpaceB c
  | _ => false

/-- Lazy body `([\s\S]*?)` of the revisión-técnica section: everything up to
the first position where the contaminantes title matches (lookahead
`(?=CERTIFICADO\s+(?:DE\s+)?(?:EMISIONES\s+)?CONTAMINANTES|$)`). -/
def revBody : List Char → List Char
  | [] => []
  | c :: cs => if (attemptContTitle (c :: cs)).isSome then [] else c :: revBody cs

/-- Lazy body of the contaminantes section, up to `(?=CERTIFICADO\s|$)`. -/
def contBody : List Char → List Char
  | [] => []
  | c :: cs => if certSpaceAt (c :: cs) then [] else c :: contBody cs

/-- `text.match(/CERTIFICADO\s+(?:DE\s+)?REVISI[ÓO]N\s+T[EÉ]CNICA([\s\S]*?)(?=...)/i)`,
returning capture group 1 (the section body).  The match succeeds exactly when
the title occurs, because the lazy body always succeeds (worst case: empty up
to end of input). -/
def revisionSectionMatch (t : List Char) : Option (List Char) :=
  searchFrom (fun s => (attemptRevTitle s).map revBody) t

/-- `text.match(/CERTIFICADO\s+(?:DE\s+)?(?:EMISIONES\s+)?CONTAMINANTES([\s\S]*?)(?=CERTIFICADO\s|$)/i)`,
returning capture group 1. -/
def contaminantesSectionMatch (t : List Char) : Option (List Char) :=
  searchFrom (fun s => (attemptContTitle s).map contBody) t

/-- Capture group `(\d{1,2}\s+[A-ZÁÉÍÓÚÑ]+\s+\d{4})` followed by `\s+` (the
optional first group of `validoPattern`); produces the capture and the rest
after the trailing whitespace.  `\d{4}` immediately followed by `\s+` forces
the final digit run to have length exactly 4. -/
def matchDateGroup (s : List Char) : Option (List Char × List Char) :=
  let ds := s.takeWhile isDigitB
  if ds.length == 1 || ds.length == 2 then
    let r1 := s.dropWhile isDigitB
    let w1 := wsTake r1
    if w1.isEmpty then none else
    let r2 := wsDrop r1
    let ls := r2.takeWhile crtLetterCI
    if ls.isEmpty then none else
    let r3 := r2.dropWhile crtLetterCI
    let w2 := wsTake r3
    if w2.isEmpty then none else
    let r4 := wsDrop r3
    let ds2 := r4.takeWhile isDigitB
    if ds2.length == 4 then
      let r5 := r4.dropWhile isDigitB
      match ws1 r5 with
      | some r6 => some (ds ++ w1 ++ ls ++ w2 ++ ds2, r6)
      | none => none
    else none
  else none

/-- Capture group 2 of `validoPattern`: `([A-ZÁÉÍÓÚÑ]+\s+\d{4})`. -/
def matchGroup2 (s : List Char) : Option (List Char) :=
  let ls := s.takeWhile crtLetterCI
  if ls.isEmpty then none else
  let r1 := s.dropWhile crtLetterCI
  let w1 := wsTake r1
  if w1.isEmpty then none else
  let r2 := wsDrop r1
  let ds := r2.takeWhile isDigitB
  if 4 ≤ ds.length then some (ls ++ w1 ++ ds.take 4) else none

/-- Attempt of
`/VÁLIDO HASTA(?:\s*FECHA REVISIÓN:)?\s*(?:(\d{1,2}\s+[A-ZÁÉÍÓÚÑ]+\s+\d{4})\s+)?([A-ZÁÉÍÓÚÑ]+\s+\d{4})/i`.
Both optional groups can be committed when they match: if `\s*FECHA REVISIÓN:`
matched but the remainder failed, the fallback would restart on the literal
`FECHA…` itself, where `letters+\s+\d{4}` cannot match; if the date group
matched but group 2 failed, the fallback would restart on a digit, where
group 2 cannot match either. -/
def attemptValido (s : List Char) : Option (Option (List Char) × List Char) := do
  let r1 ← matchLit "VÁLIDO HASTA".data s
  let r2 :=
    match matchLit "FECHA REVISIÓN:".data (wsDrop r1) with
    | some r => r
    | none => r1
  let r3 := wsDrop r2
  match matchDateGroup r3 with
  | some (cap1, r4) => (matchGroup2 r4).map (fun cap2 => (some cap1, cap2))
  | none => (matchGroup2 r3).map (fun cap2 => (none, cap2))

/-- `(m[2] || m[1] || "").trim()` applied to a `validoPattern` match. -/
def validoValueOf (m : Option (List Char) × List Char) : String :=
  let v :=
    if m.2.isEmpty then
      match m.1 with
      | some c1 => c1
      | none => []
    else m.2
  jsTrimS ⟨v⟩

/-- `fechaMatch ? fechaMatch[1].trim() : ""`. -/
def fechaOf (t : List Char) : String :=
  match searchFrom attemptFecha t with
  | some cap => jsTrimS ⟨cap⟩
  | none => ""

/-- `plantaMatch ? plantaMatch[1].trim() : ""`. -/
def plantaOf (t : List Char) : String :=
  match searchFrom attemptPlanta t with
  | some cap => jsTrimS ⟨cap⟩
  | none => ""

/-- `placaMatch ? placaMatch[1].trim() : ""`. -/
def placaOf (t : List Char) : String :=
  match searchFrom attemptPlaca t with
  | some cap => jsTrimS ⟨cap⟩
  | none => ""

/-- `folioMatch ? folioMatch[1].trim() : ""`. -/
def folioOf (t : List Char) : String :=
  match searchFrom attemptFolioGrp t with
  | some cap => jsTrimS ⟨cap⟩
  | none => ""

/-- Value assigned to `"Válido Hasta Revisión Técnica"`: empty when the
section is absent or the section body has no `VÁLIDO HASTA` match. -/
def validoRTOf (t : List Char) : String :=
  match revisionSectionMatch t with
  | some body =>
    match searchFrom attemptValido body with
    | some m => validoValueOf m
    | none => ""
  | none => ""

/-- Value assigned to `"Válido Hasta Contaminantes"`. -/
def validoContOf (t : List Char) : String :=
  match contaminantesSectionMatch t with
  | some body =>
    match searchFrom attemptValido body with
    | some m => validoValueOf m
    | none => ""
  | none => ""

/-- The field map built by the extractor (`Record<string, string>`, in JS
insertion order). -/
abbrev Datos := List (String × String)

/-- `datos[k]` where an absent key behaves like the empty string (every read
in the validated code only tests truthiness or a pattern, and `undefined` and
`""` are treated identically there). -/
def getD (d : Datos) (k : String) : String :=
  match d.find? (fun p => p.1 == k) with
  | some p => p.2
  | none => ""

/-- Error thrown by `extraerDatosCRT` when neither certificate section is
present. -/
def certMissingMsg : String :=
  "El PDF no contiene ningún certificado válido (Revisión Técnica o Emisiones Contaminantes)."

/-- The field map assembled by `extraerDatosCRT`, in JS insertion order
(`Fecha`, `Planta`, `Placa`, the two `Válido Hasta` fields, `Folio` last). -/
def datosOf (t : List Char) : Datos :=
  [("Fecha de Revisión", fechaOf t), ("Planta", plantaOf t),
   ("Placa Patente", placaOf t),
   ("Válido Hasta Revisión Técnica", validoRTOf t),
   ("Válido Hasta Contaminantes", validoContOf t),
   ("Folio", folioOf t)]

/-- `extraerDatosCRT(text)`: extracts the fixed fields, splits the two
certificate sections, extracts each `VÁLIDO HASTA`, throws when neither
section is present, finally extracts the folio. -/
def extraerDatosCRT (text : String) : Except String Datos :=
  let t := text.data
  if (revisionSectionMatch t).isNone && (contaminantesSectionMatch t).isNone then
    .error certMissingMsg
  else
    .ok (datosOf t)

/-- Anchored test of `/^\d{1,2}\s+[A-ZÁÉÍÓÚÑ]+\s+\d{4}$/` (case-sensitive) on
the whole string, the required pattern of `"Fecha de Revisión"`. -/
def reqFechaOk (s : String) : Bool :=
  let l := s.data
  let ds := l.takeWhile isDigitB
  let r1 := l.dropWhile isDigitB
  (ds.length == 1 || ds.length == 2) &&
    (let w1 := r1.takeWhile isJsSpaceB
     let r2 := r1.dropWhile isJsSpaceB
     !w1.isEmpty &&
       (let ls := r2.takeWhile crtLetterCS
        let r3 := r2.dropWhile crtLetterCS
        !ls.isEmpty &&
          (let w2 := r3.takeWhile isJsSpaceB
           let r4 := r3.dropWhile isJsSpaceB
           !w2.isEmpty && (r4.length == 4) && r4.all isDigitB)))

/-- Anchored test of `/^[A-Z0-9]+$/` (case-sensitive), the required pattern of
`"Placa Patente"`. -/
def reqPlacaOk (s : String) : Bool :=
  !s.data.isEmpty && s.data.all alnumCS

/-- Anchored test of `/^.+$/`, the required pattern of `"Planta"`: non-empty
with no line terminator. -/
def reqPlantaOk (s : String) : Bool :=
  !s.data.isEmpty && s.data.all dotCharB

/-- Anchored test of `/^N°B\d+$/i`, the required pattern of `"Folio"`. -/
def reqFolioOk (s : String) : Bool :=
  match s.data with
  | a :: b :: c :: rest =>
    ciEq 'N' a && (b == '°') && ciEq 'B' c && !rest.isEmpty && rest.all isDigitB
  | _ => false

/-- Anchored test of `/^[A-ZÁÉÍÓÚÑ]+\s+\d{4}$/i`, the pattern of both optional
`"Válido Hasta"` fields. -/
def optValidoOk (s : String) : Bool :=
  let l := s.data
  let ls := l.takeWhile crtLetterCI
  let r1 := l.dropWhile crtLetterCI
  !ls.isEmpty &&
    (let w1 := r1.takeWhile isJsSpaceB
     let r2 := r1.dropWhile isJsSpaceB
     !w1.isEmpty && (r2.length == 4) && r2.all isDigitB)

/-- One iteration of the required-field loop of `bestEffortValidationCRT`:
a missing/empty value reports `Falta el campo obligatorio`, a present value
failing its pattern reports the format error. -/
def fieldErrs (f : String) (ok : String → Bool) (d : Datos) : List String :=
  let v := getD d f
  if v == "" then ["Falta el campo obligatorio \"" ++ f ++ "\"."]
  else if !(ok v) then
    ["Campo \"" ++ f ++ "\" con valor \"" ++ v ++ "\" no coincide con el formato esperado."]
  else []

/-- One iteration of the optional-field loop: only a non-empty value is
tested against the pattern. -/
def optErrs (f : String) (d : Datos) : List String :=
  let v := getD d f
  if v != "" && !(optValidoOk v) then
    ["Campo \"" ++ f ++ "\" con valor \"" ++ v ++ "\" no coincide con el formato esperado."]
  else []

/-- Truthiness test `datos[f] && datos[f].trim() !== ""` of the group check. -/
def hasValido (d : Datos) (f : String) : Bool :=
  getD d f != "" && jsTrimS (getD d f) != ""

/-- Error pushed when both `"Válido Hasta"` fields are empty. -/
def groupMsg : String :=
  "Debe haber al menos uno de los campos \"Válido Hasta Revisión Técnica\" o \"Válido Hasta Contaminantes\"."

/-- The error list accumulated by `bestEffortValidationCRT`, in push order:
the required loop over (Fecha, Placa, Planta, Folio), the optional loop, the
group check. -/
def validationErrorsCRT (d : Datos) : List String :=
  fieldErrs "Fecha de Revisión" reqFechaOk d ++
  fieldErrs "Placa Patente" reqPlacaOk d ++
  fieldErrs "Planta" reqPlantaOk d ++
  fieldErrs "Folio" reqFolioOk d ++
  optErrs "Válido Hasta Revisión Técnica" d ++
  optErrs "Válido Hasta Contaminantes" d ++
  (if !(hasValido d "Válido Hasta Revisión Técnica" ||
        hasValido d "Válido Hasta Contaminantes") then [groupMsg] else [])

/-- `bestEffortValidationCRT(datos, fileName)`: throws the combined message
when any error was accumulated.  The TypeScript function returns `void` and
never writes to `datos`; the embedding returns the unmodified map to make
that explicit. -/
def bestEffortValidationCRT (datos : Datos) (fileName : String) : Except String Datos :=
  let errors := validationErrorsCRT datos
  if errors.isEmpty then .ok datos
  else
    .error ("El archivo " ++ fileName ++ " presenta problemas en los datos:\n - " ++
            String.intercalate "\n - " errors)

/-- The fixed column order of `generarExcel` (also the key order of the
success entries built by `procesarPDFCRT`). -/
def excelHeaders : List String :=
  ["Nombre PDF", "Fecha de Revisión", "Planta", "Placa Patente",
   "Válido Hasta Revisión Técnica", "Válido Hasta Contaminantes", "Folio"]

/-- A row object handed to `generarExcel` (`Record<string, any>`): a present
key may hold a string or `null`; an absent key reads as `undefined`. -/
abbrev Registro := List (String × Option String)

/-- `registro[header] ?? ""`: a missing key or a `null` value renders as the
empty string. -/
def cellValue (r : Registro) (k : String) : String :=
  match r.find? (fun p => p.1 == k) with
  | some (_, some v) => v
  | some (_, none) => ""
  | none => ""

/-- `generarExcel(registros)`: throws on an empty record list, otherwise
produces the sheet grid — row 1 is `excelHeaders`, row `i+2` holds record
`i`'s value for each header in order.  (Styling, serialization and download
are external library calls.) -/
def generarExcel (registros : List Registro) : Except String (List (List String)) :=
  if registros.length == 0 then .error "No hay registros para generar el Excel."
  else .ok (excelHeaders :: registros.map (fun r => excelHeaders.map (cellValue r)))

/-- `procesarPDFCRT(file)` after the external `parsePDFBuffer` boundary: takes
the extracted text and file name, runs extraction, validation, adds
`"Nombre PDF"` and builds the ordered literal object. -/
def procesarPDFCRT (text fileName : String) : Except String Datos := do
  let datosCRT ← extraerDatosCRT text
  let datos2 ← bestEffortValidationCRT datosCRT fileName
  let conNombre := datos2 ++ [("Nombre PDF", fileName)]
  .ok [("Nombre PDF", getD conNombre "Nombre PDF"),
       ("Fecha de Revisión", getD conNombre "Fecha de Revisión"),
       ("Planta", getD conNombre "Planta"),
       ("Placa Patente", getD conNombre "Placa Patente"),
       ("Válido Hasta Revisión Técnica", getD conNombre "Válido Hasta Revisión Técnica"),
       ("Válido Hasta Contaminantes", getD conNombre "Válido Hasta Contaminantes"),
       ("Folio", getD conNombre "Folio")]

/-- `parseInt(s, 10)`: skip leading whitespace, optional sign, longest digit
prefix; `none` models `NaN`. -/
def jsParseInt10 (s : String) : Option Int :=
  let l := s.data.dropWhile isJsSpaceB
  let sl : Int × List Char :=
    match l with
    | '-' :: rest => (-1, rest)
    | '+' :: rest => (1, rest)
    | _ => (1, l)
  let ds := sl.2.takeWhile isDigitB
  if ds.isEmpty then none
  else some (sl.1 * (Int.ofNat (ds.foldl (fun acc c => acc * 10 + (c.toNat - 48)) 0)))

/-- `MAX_FILE_SIZE = parseInt(process.env.NEXT_PUBLIC_MAX_FILE_SIZE || "5242880", 10)`;
the environment variable is `none` when unset, and `||` replaces both the
unset and the empty value by the default literal. -/
def MAX_FILE_SIZE (env : Option String) : Option Int :=
  jsParseInt10 (match env with
    | none => "5242880"
    | some s => if s == "" then "5242880" else s)

end Crt

namespace Batch

open Crt

/-- Modelled from the spec: one submitted document (file name plus the text
the external text-extraction collaborator produced for it).  The batch
scheduler itself lives in the Python service, outside this source tree. -/
structure BatchTask where
  fileName : String
  text : String
  deriving Repr, DecidableEq

/-- The pure per-document outcome: the embedded extraction + validation
pipeline applied to the task's text. -/
def taskOutcome (tk : BatchTask) : Except String Datos :=
  procesarPDFCRT tk.text tk.fileName

/-- Modelled from the spec: one progress event
`{sequence, total, fileName, status, runningSuccesses, runningFailures, elapsedMs, estimatedRemainingMs}`. -/
structure ProgressEvent where
  sequence : Nat
  total : Nat
  fileName : String
  fulfilled : Bool
  runningSuccesses : Nat
  runningFailures : Nat
  elapsedMs : Nat
  estimatedRemainingMs : Nat
  deriving Repr, DecidableEq

/-- Modelled from the spec: the ETA formula
`estimatedRemainingMs = elapsedMs / completed * (total - completed)`. -/
def etaOf (elapsed completed total : Nat) : Nat :=
  elapsed / completed * (total - completed)

/-- Modelled from the spec: the progress reporter folds over completions in
completion order; `order` lists the submission indices in completion order
and `times` the elapsed milliseconds at each completion.  The sequence number
of an event is the count of completions so far. -/
def mkEvents (tasks : List BatchTask) (total : Nat) :
    List Nat → List Nat → Nat → Nat → Nat → List ProgressEvent
  | [], _, _, _, _ => []
  | _ :: _, [], _, _, _ => []
  | i :: os, t :: ts, completed, succ, failed =>
    let tk := tasks.getD i ⟨"", ""⟩
    let ok := (taskOutcome tk).isOk
    let completed' := completed + 1
    { sequence := completed', total := total, fileName := tk.fileName,
      fulfilled := ok,
      runningSuccesses := if ok then succ + 1 else succ,
      runningFailures := if ok then failed else failed + 1,
      elapsedMs := t,
      estimatedRemainingMs := etaOf t completed' total } ::
      mkEvents tasks total os ts completed'
        (if ok then succ + 1 else succ) (if ok then failed else failed + 1)

/-- The full progress stream of a batch run. -/
def batchEvents (tasks : List BatchTask) (order times : List Nat) : List ProgressEvent :=
  mkEvents tasks tasks.length order times 0 0 0

/-- Modelled from the spec: the aggregator receives outcomes in completion
order, keyed by submission index. -/
def completionLog (tasks : List BatchTask) (order : List Nat) :
    List (Nat × BatchTask × Except String Datos) :=
  order.map (fun i =>
    let tk := tasks.getD i ⟨"", ""⟩
    (i, tk, taskOutcome tk))

/-- Modelled from the spec: the final report is emitted in submission order,
scanning indices `0..N-1` through the completion-keyed store. -/
def emitOrdered (tasks : List BatchTask) (order : List Nat) :
    List (BatchTask × Except String Datos) :=
  (List.range tasks.length).filterMap (fun i =>
    ((completionLog tasks order).find? (fun e => e.1 == i)).map (fun e => e.2))

/-- Modelled from the spec: the final `BatchReport`
`{totalProcessed, totalSuccess, totalFailure, exitosos, fallidos}`. -/
structure BatchReport where
  totalProcessed : Nat
  totalSuccess : Nat
  totalFailure : Nat
  exitosos : List (String × Datos)
  fallidos : List (String × String)
  deriving Repr, DecidableEq

/-- Success bucket entry of one emitted outcome. -/
def okEntry (e : BatchTask × Except String Datos) : Option (String × Datos) :=
  match e.2 with
  | .ok d => some (e.1.fileName, d)
  | .error _ => none

/-- Failure bucket entry of one emitted outcome. -/
def errEntry (e : BatchTask × Except String Datos) : Option (String × String) :=
  match e.2 with
  | .ok _ => none
  | .error m => some (e.1.fileName, m)

/-- Modelled from the spec: build the `BatchReport` from the emitted
(submission-ordered) outcomes. -/
def buildReport (tasks : List BatchTask) (order : List Nat) : BatchReport :=
  let em := emitOrdered tasks order
  { totalProcessed := em.length,
    totalSuccess := (em.filterMap okEntry).length,
    totalFailure := (em.filterMap errEntry).length,
    exitosos := em.filterMap okEntry,
    fallidos := em.filterMap errEntry }

/-- Uniform per-task latency `L`: the `k`-th completion happens at
`(k+1) * L` elapsed milliseconds. -/
def uniformTimes (n L : Nat) : List Nat :=
  (List.range n).map (fun k => (k + 1) * L)

end Batch

namespace Crt

/-- A letter of the `[A-ZÁÉÍÓÚÑ]` class (`i` flag) is not JavaScript
whitespace. -/
lemma crtLetter_not_space {c : Char} (h : crtLetterCI c = true) : isJsSpaceB c = false := by
  simp only [crtLetterCI, crtLetterCS, isUpperB, isLowerB, isUpperAccentB, isLowerAccentB,
    Bool.or_eq_true, decide_eq_true_eq] at h
  simp only [isJsSpaceB, decide_eq_false_iff_not]
  omega

/-- A list containing a non-whitespace character does not trim to nil. -/
lemma jsTrimL_ne_nil {l : List Char} (h : ∃ c ∈ l, isJsSpaceB c = false) :
    jsTrimL l ≠ [] := by
  obtain ⟨c, hc, hns⟩ := h
  intro hnil
  have h1 : (l.dropWhile isJsSpaceB).reverse.dropWhile isJsSpaceB = [] := by
    have := congrArg List.reverse hnil
    simpa [jsTrimL] using this
  have h2 : ∀ x ∈ l.dropWhile isJsSpaceB, isJsSpaceB x = true := by
    intro x hx
    exact (List.dropWhile_eq_nil_iff.mp h1) x (List.mem_reverse.mpr hx)
  have hcd : c ∈ l.dropWhile isJsSpaceB := by
    have hsplit := List.takeWhile_append_dropWhile isJsSpaceB l
    rcases List.mem_append.mp (by rw [hsplit]; exact hc) with htk | hdp
    · exact absurd (List.mem_takeWhile_imp htk) (by simp [hns])
    · exact hdp
  exact absurd (h2 c hcd) (by simp [hns])

/-- A non-empty character list gives a non-empty string. -/
lemma mk_ne_empty {l : List Char} (h : l ≠ []) : (⟨l⟩ : String) ≠ "" := by
  intro hc
  exact h (by simpa using congrArg String.data hc)

/-- A value matching the optional `Válido Hasta` pattern is non-empty and has
a non-empty trim, hence satisfies the truthiness group test. -/
lemma optValidoOk_hasValido {v : String} (h : optValidoOk v = true) :
    (v != "" && jsTrimS v != "") = true := by
  have hls : v.data.takeWhile crtLetterCI ≠ [] := by
    simp only [optValidoOk, Bool.and_eq_true, Bool.not_eq_true'] at h
    intro hc
    rw [hc] at h
    simp at h
  obtain ⟨c, cs, hvd, hc⟩ : ∃ c cs, v.data = c :: cs ∧ crtLetterCI c = true := by
    cases hvd : v.data with
    | nil => rw [hvd] at hls; simp at hls
    | cons c cs =>
      refine ⟨c, cs, rfl, ?_⟩
      by_contra hcc
      rw [hvd, List.takeWhile_cons] at hls
      simp [Bool.not_eq_true] at hcc
      simp [hcc] at hls
  have hwit : ∃ x ∈ v.data, isJsSpaceB x = false :=
    ⟨c, by rw [hvd]; exact List.mem_cons_self c cs, crtLetter_not_space hc⟩
  have hv : v ≠ "" := by
    intro hc'
    rw [hc'] at hvd
    simp at hvd
  have ht : jsTrimS v ≠ "" := mk_ne_empty (jsTrimL_ne_nil hwit)
  simp [bne, hv, ht]

/-- The required `Fecha de Revisión` pattern rejects the empty string. -/
lemma reqFechaOk_ne {v : String} (h : reqFechaOk v = true) : v ≠ "" := by
  intro hc; rw [hc] at h; exact absurd h (by decide)

/-- The required `Placa Patente` pattern rejects the empty string. -/
lemma reqPlacaOk_ne {v : String} (h : reqPlacaOk v = true) : v ≠ "" := by
  intro hc; rw [hc] at h; exact absurd h (by decide)

/-- The required `Planta` pattern rejects the empty string. -/
lemma reqPlantaOk_ne {v : String} (h : reqPlantaOk v = true) : v ≠ "" := by
  intro hc; rw [hc] at h; exact absurd h (by decide)

/-- The required `Folio` pattern rejects the empty string. -/
lemma reqFolioOk_ne {v : String} (h : reqFolioOk v = true) : v ≠ "" := by
  intro hc; rw [hc] at h; exact absurd h (by decide)

/-- The required-field loop body reports no error exactly for a non-empty
value passing its pattern. -/
lemma fieldErrs_nil_iff (f : String) (ok : String → Bool) (d : Datos) :
    fieldErrs f ok d = [] ↔ (getD d f ≠ "" ∧ ok (getD d f) = true) := by
  unfold fieldErrs
  by_cases h : getD d f = ""
  · simp [h]
  · simp only [h, beq_iff_eq, if_neg h]
    by_cases h2 : ok (getD d f) = true
    · simp [h2, h]
    · simp only [Bool.not_eq_true] at h2
      simp [h2, h]

/-- The optional-field loop body reports no error exactly when the value is
empty or passes the pattern. -/
lemma optErrs_nil_iff (f : String) (d : Datos) :
    optErrs f d = [] ↔ (getD d f = "" ∨ optValidoOk (getD d f) = true) := by
  unfold optErrs
  by_cases h : getD d f = ""
  · simp [h, bne]
  · by_cases h2 : optValidoOk (getD d f) = true
    · simp [h, h2, bne]
    · simp only [Bool.not_eq_true] at h2
      simp [h, h2, bne]

set_option maxHeartbeats 1000000 in
/-- The accumulated error list is empty exactly when every field-group
condition is satisfied. -/
lemma validationErrors_nil_iff (d : Datos) :
    validationErrorsCRT d = [] ↔
      ((getD d "Fecha de Revisión" ≠ "" ∧ reqFechaOk (getD d "Fecha de Revisión") = true) ∧
       (getD d "Placa Patente" ≠ "" ∧ reqPlacaOk (getD d "Placa Patente") = true) ∧
       (getD d "Planta" ≠ "" ∧ reqPlantaOk (getD d "Planta") = true) ∧
       (getD d "Folio" ≠ "" ∧ reqFolioOk (getD d "Folio") = true) ∧
       (getD d "Válido Hasta Revisión Técnica" = "" ∨
         optValidoOk (getD d "Válido Hasta Revisión Técnica") = true) ∧
       (getD d "Válido Hasta Contaminantes" = "" ∨
         optValidoOk (getD d "Válido Hasta Contaminantes") = true) ∧
       (hasValido d "Válido Hasta Revisión Técnica" = true ∨
         hasValido d "Válido Hasta Contaminantes" = true)) := by
  have hg : (if !(hasValido d "Válido Hasta Revisión Técnica" ||
        hasValido d "Válido Hasta Contaminantes") then [groupMsg] else []) = [] ↔
      (hasValido d "Válido Hasta Revisión Técnica" = true ∨
       hasValido d "Válido Hasta Contaminantes" = true) := by
    cases ha : hasValido d "Válido Hasta Revisión Técnica" <;>
      cases hb : hasValido d "Válido Hasta Contaminantes" <;> simp
  unfold validationErrorsCRT
  rw [List.append_eq_nil, List.append_eq_nil, List.append_eq_nil, List.append_eq_nil,
      List.append_eq_nil, List.append_eq_nil]
  rw [fieldErrs_nil_iff, fieldErrs_nil_iff, fieldErrs_nil_iff, fieldErrs_nil_iff,
      optErrs_nil_iff, optErrs_nil_iff, hg]
  tauto

/-- C2: `bestEffortValidationCRT` succeeds (returning the map unchanged) if
and only if every unconditionally required field is non-empty and matches its
pattern, each non-empty optional field matches its pattern, and at least one
optional `Válido Hasta` field is (truthily) present; otherwise it throws. -/
theorem crt_validation_ok_iff (d : Datos) (f : String) :
    bestEffortValidationCRT d f = .ok d ↔
      ((getD d "Fecha de Revisión" ≠ "" ∧ reqFechaOk (getD d "Fecha de Revisión") = true) ∧
       (getD d "Placa Patente" ≠ "" ∧ reqPlacaOk (getD d "Placa Patente") = true) ∧
       (getD d "Planta" ≠ "" ∧ reqPlantaOk (getD d "Planta") = true) ∧
       (getD d "Folio" ≠ "" ∧ reqFolioOk (getD d "Folio") = true) ∧
       (getD d "Válido Hasta Revisión Técnica" = "" ∨
         optValidoOk (getD d "Válido Hasta Revisión Técnica") = true) ∧
       (getD d "Válido Hasta Contaminantes" = "" ∨
         optValidoOk (getD d "Válido Hasta Contaminantes") = true) ∧
       (hasValido d "Válido Hasta Revisión Técnica" = true ∨
         hasValido d "Válido Hasta Contaminantes" = true)) := by
  rw [← validationErrors_nil_iff]
  unfold bestEffortValidationCRT
  by_cases he : validationErrorsCRT d = []
  · simp [he]
  · have hne : (validationErrorsCRT d).isEmpty = false := by
      simp [List.isEmpty_iff, he]
    simp [hne, he]

/-- C2 witness: a concrete map with all required fields valid and exactly one
optional field present validates successfully. -/
theorem crt_validation_ok_iff_witness :
    bestEffortValidationCRT
      [("Fecha de Revisión", "1 MARZO 2024"), ("Placa Patente", "ABCD12"),
       ("Planta", "A-1"), ("Folio", "N°B123"),
       ("Válido Hasta Revisión Técnica", "MARZO 2025"),
       ("Válido Hasta Contaminantes", "")] "x.pdf" = .ok
      [("Fecha de Revisión", "1 MARZO 2024"), ("Placa Patente", "ABCD12"),
       ("Planta", "A-1"), ("Folio", "N°B123"),
       ("Válido Hasta Revisión Técnica", "MARZO 2025"),
       ("Válido Hasta Contaminantes", "")] :=
  (crt_validation_ok_iff _ "x.pdf").mpr (by decide)

/-- With neither certificate title present the extractor throws. -/
lemma extraer_eq_error {t : String} (h1 : revisionSectionMatch t.data = none)
    (h2 : contaminantesSectionMatch t.data = none) :
    extraerDatosCRT t = .error certMissingMsg := by
  unfold extraerDatosCRT
  simp [h1, h2]

/-- With at least one certificate title present the extractor returns the
assembled map. -/
lemma extraer_eq_ok {t : String}
    (h : (revisionSectionMatch t.data).isSome = true ∨
         (contaminantesSectionMatch t.data).isSome = true) :
    extraerDatosCRT t = .ok (datosOf t.data) := by
  unfold extraerDatosCRT
  rcases h with h | h
  · cases hr : revisionSectionMatch t.data with
    | none => rw [hr] at h; simp at h
    | some b => simp [hr]
  · cases hc : contaminantesSectionMatch t.data with
    | none => rw [hc] at h; simp at h
    | some b => simp [hc]

/-- Field reads on the assembled map. -/
lemma getD_datosOf_fecha (t : List Char) :
    getD (datosOf t) "Fecha de Revisión" = fechaOf t := by simp [datosOf, getD]

/-- Field reads on the assembled map. -/
lemma getD_datosOf_planta (t : List Char) :
    getD (datosOf t) "Planta" = plantaOf t := by simp [datosOf, getD]

/-- Field reads on the assembled map. -/
lemma getD_datosOf_placa (t : List Char) :
    getD (datosOf t) "Placa Patente" = placaOf t := by simp [datosOf, getD]

/-- Field reads on the assembled map. -/
lemma getD_datosOf_vrt (t : List Char) :
    getD (datosOf t) "Válido Hasta Revisión Técnica" = validoRTOf t := by
  simp [datosOf, getD]

/-- Field reads on the assembled map. -/
lemma getD_datosOf_vc (t : List Char) :
    getD (datosOf t) "Válido Hasta Contaminantes" = validoContOf t := by
  simp [datosOf, getD]

/-- Field reads on the assembled map. -/
lemma getD_datosOf_folio (t : List Char) :
    getD (datosOf t) "Folio" = folioOf t := by simp [datosOf, getD]

/-- An absent revisión-técnica section leaves its `Válido Hasta` field empty. -/
lemma validoRTOf_none {t : List Char} (h : revisionSectionMatch t = none) :
    validoRTOf t = "" := by
  unfold validoRTOf
  rw [h]

/-- An absent contaminantes section leaves its `Válido Hasta` field empty. -/
lemma validoContOf_none {t : List Char} (h : contaminantesSectionMatch t = none) :
    validoContOf t = "" := by
  unfold validoContOf
  rw [h]

/-- A value matching the optional pattern is non-empty. -/
lemma optValidoOk_ne {v : String} (h : optValidoOk v = true) : v ≠ "" := by
  intro hc; rw [hc] at h; exact absurd h (by decide)

/-- The ordered record built by `procesarPDFCRT` on success. -/
def ordenadosOf (t : List Char) (n : String) : Datos :=
  [("Nombre PDF", n), ("Fecha de Revisión", fechaOf t), ("Planta", plantaOf t),
   ("Placa Patente", placaOf t),
   ("Válido Hasta Revisión Técnica", validoRTOf t),
   ("Válido Hasta Contaminantes", validoContOf t),
   ("Folio", folioOf t)]

/-- When a section is present and the extracted map validates, the pipeline
returns the ordered record. -/
lemma procesar_ok {t n : String}
    (hsec : (revisionSectionMatch t.data).isSome = true ∨
            (contaminantesSectionMatch t.data).isSome = true)
    (hval : validationErrorsCRT (datosOf t.data) = []) :
    procesarPDFCRT t n = .ok (ordenadosOf t.data n) := by
  have hv : bestEffortValidationCRT (datosOf t.data) n = .ok (datosOf t.data) := by
    unfold bestEffortValidationCRT
    simp [hval]
  unfold procesarPDFCRT
  rw [extraer_eq_ok hsec]
  simp only [Bind.bind, Except.bind, hv]
  simp [ordenadosOf, datosOf, getD]

/-- When neither section is present the pipeline propagates the extractor's
error. -/
lemma procesar_err {t n : String} (h1 : revisionSectionMatch t.data = none)
    (h2 : contaminantesSectionMatch t.data = none) :
    procesarPDFCRT t n = .error certMissingMsg := by
  unfold procesarPDFCRT
  rw [extraer_eq_error h1 h2]
  simp only [Bind.bind, Except.bind]

/-- The validation conditions needed for a successful run, given pattern-valid
fixed fields and a pattern-valid `Válido Hasta` value on at least one side. -/
lemma errors_nil_of {t : List Char}
    (hfe : reqFechaOk (fechaOf t) = true) (hpl : reqPlantaOk (plantaOf t) = true)
    (hpa : reqPlacaOk (placaOf t) = true) (hfo : reqFolioOk (folioOf t) = true)
    (hrt : validoRTOf t = "" ∨ optValidoOk (validoRTOf t) = true)
    (hct : validoContOf t = "" ∨ optValidoOk (validoContOf t) = true)
    (hone : optValidoOk (validoRTOf t) = true ∨ optValidoOk (validoContOf t) = true) :
    validationErrorsCRT (datosOf t) = [] := by
  rw [validationErrors_nil_iff]
  rw [getD_datosOf_fecha, getD_datosOf_planta, getD_datosOf_placa, getD_datosOf_folio,
      getD_datosOf_vrt, getD_datosOf_vc]
  have hhv : hasValido (datosOf t) "Válido Hasta Revisión Técnica" = true ∨
      hasValido (datosOf t) "Válido Hasta Contaminantes" = true := by
    rcases hone with h | h
    · exact Or.inl (by unfold hasValido; rw [getD_datosOf_vrt]; exact optValidoOk_hasValido h)
    · exact Or.inr (by unfold hasValido; rw [getD_datosOf_vc]; exact optValidoOk_hasValido h)
  exact ⟨⟨reqFechaOk_ne hfe, hfe⟩, ⟨reqPlacaOk_ne hpa, hpa⟩, ⟨reqPlantaOk_ne hpl, hpl⟩,
         ⟨reqFolioOk_ne hfo, hfo⟩, hrt, hct, hhv⟩

/-- C1: with the fixed required fields extracting to pattern-valid values and
each present section carrying a well-formed `VÁLIDO HASTA`, the four section
cases behave as specified: only revisión-técnica succeeds with the
contaminantes field empty; only contaminantes succeeds with the
revisión-técnica field empty; both sections succeed with both fields
populated; neither section fails with the missing-certificates error. -/
theorem crt_section_cases (t n : String)
    (hfe : reqFechaOk (fechaOf t.data) = true)
    (hpl : reqPlantaOk (plantaOf t.data) = true)
    (hpa : reqPlacaOk (placaOf t.data) = true)
    (hfo : reqFolioOk (folioOf t.data) = true)
    (hrv : (revisionSectionMatch t.data).isSome = true →
           optValidoOk (validoRTOf t.data) = true)
    (hcv : (contaminantesSectionMatch t.data).isSome = true →
           optValidoOk (validoContOf t.data) = true) :
    ((revisionSectionMatch t.data).isSome = true ∧ contaminantesSectionMatch t.data = none →
       ∃ r, procesarPDFCRT t n = .ok r ∧
         getD r "Válido Hasta Contaminantes" = "" ∧
         getD r "Válido Hasta Revisión Técnica" ≠ "") ∧
    (revisionSectionMatch t.data = none ∧ (contaminantesSectionMatch t.data).isSome = true →
       ∃ r, procesarPDFCRT t n = .ok r ∧
         getD r "Válido Hasta Revisión Técnica" = "" ∧
         getD r "Válido Hasta Contaminantes" ≠ "") ∧
    ((revisionSectionMatch t.data).isSome = true ∧
       (contaminantesSectionMatch t.data).isSome = true →
       ∃ r, procesarPDFCRT t n = .ok r ∧
         getD r "Válido Hasta Revisión Técnica" ≠ "" ∧
         getD r "Válido Hasta Contaminantes" ≠ "") ∧
    (revisionSectionMatch t.data = none ∧ contaminantesSectionMatch t.data = none →
       procesarPDFCRT t n = .error certMissingMsg) := by
  refine ⟨?_, ?_, ?_, ?_⟩
  · rintro ⟨hr, hc⟩
    have hvrt := hrv hr
    have hvc0 := validoContOf_none hc
    have hval := errors_nil_of hfe hpl hpa hfo (Or.inr hvrt) (Or.inl hvc0) (Or.inl hvrt)
    refine ⟨ordenadosOf t.data n, procesar_ok (Or.inl hr) hval, ?_, ?_⟩
    · have hg : getD (ordenadosOf t.data n) "Válido Hasta Contaminantes" =
          validoContOf t.data := by simp [ordenadosOf, getD]
      rw [hg, hvc0]
    · have hg : getD (ordenadosOf t.data n) "Válido Hasta Revisión Técnica" =
          validoRTOf t.data := by simp [ordenadosOf, getD]
      rw [hg]
      exact optValidoOk_ne hvrt
  · rintro ⟨hr, hc⟩
    have hvct := hcv hc
    have hvr0 := validoRTOf_none hr
    have hval := errors_nil_of hfe hpl hpa hfo (Or.inl hvr0) (Or.inr hvct) (Or.inr hvct)
    refine ⟨ordenadosOf t.data n, procesar_ok (Or.inr hc) hval, ?_, ?_⟩
    · have hg : getD (ordenadosOf t.data n) "Válido Hasta Revisión Técnica" =
          validoRTOf t.data := by simp [ordenadosOf, getD]
      rw [hg, hvr0]
    · have hg : getD (ordenadosOf t.data n) "Válido Hasta Contaminantes" =
          validoContOf t.data := by simp [ordenadosOf, getD]
      rw [hg]
      exact optValidoOk_ne hvct
  · rintro ⟨hr, hc⟩
    have hvrt := hrv hr
    have hvct := hcv hc
    have hval := errors_nil_of hfe hpl hpa hfo (Or.inr hvrt) (Or.inr hvct) (Or.inl hvrt)
    refine ⟨ordenadosOf t.data n, procesar_ok (Or.inl hr) hval, ?_, ?_⟩
    · have hg : getD (ordenadosOf t.data n) "Válido Hasta Revisión Técnica" =
          validoRTOf t.data := by simp [ordenadosOf, getD]
      rw [hg]
      exact optValidoOk_ne hvrt
    · have hg : getD (ordenadosOf t.data n) "Válido Hasta Contaminantes" =
          validoContOf t.data := by simp [ordenadosOf, getD]
      rw [hg]
      exact optValidoOk_ne hvct
  · rintro ⟨hr, hc⟩
    exact procesar_err hr hc

/-- C1 witness: a document with both certificate sections, instantiating the
both-sections case of the theorem. -/
theorem crt_section_cases_witness :
    ∃ r, procesarPDFCRT "FECHA REVISIÓN: 1 MARZO 2024 PLANTA: A-1 PLACA PATENTE ABCD12 N°B123 CERTIFICADO REVISIÓN TÉCNICA VÁLIDO HASTA MARZO 2025 CERTIFICADO CONTAMINANTES VÁLIDO HASTA ABRIL 2025" "a.pdf" = .ok r ∧
      getD r "Válido Hasta Revisión Técnica" ≠ "" ∧
      getD r "Válido Hasta Contaminantes" ≠ "" := by
  have h := crt_section_cases
    "FECHA REVISIÓN: 1 MARZO 2024 PLANTA: A-1 PLACA PATENTE ABCD12 N°B123 CERTIFICADO REVISIÓN TÉCNICA VÁLIDO HASTA MARZO 2025 CERTIFICADO CONTAMINANTES VÁLIDO HASTA ABRIL 2025"
    "a.pdf" (by decide) (by decide) (by decide) (by decide)
    (fun _ => by decide) (fun _ => by decide)
  exact h.2.2.1 ⟨by decide, by decide⟩

/-- C4: the extractor never throws for a missing individual field — whenever
at least one certificate title is present it returns normally; its error
outcome happens exactly when both certificate blocks are absent; and each
fixed field whose pattern has no match in the text is the empty string. -/
theorem extraer_never_field_throw (t : String) :
    ((revisionSectionMatch t.data).isSome = true ∨
       (contaminantesSectionMatch t.data).isSome = true →
       extraerDatosCRT t = .ok (datosOf t.data)) ∧
    ((∃ e, extraerDatosCRT t = .error e) ↔
       revisionSectionMatch t.data = none ∧ contaminantesSectionMatch t.data = none) ∧
    (searchFrom attemptFecha t.data = none →
       getD (datosOf t.data) "Fecha de Revisión" = "") ∧
    (searchFrom attemptPlanta t.data = none → getD (datosOf t.data) "Planta" = "") ∧
    (searchFrom attemptPlaca t.data = none →
       getD (datosOf t.data) "Placa Patente" = "") ∧
    (searchFrom attemptFolioGrp t.data = none → getD (datosOf t.data) "Folio" = "") := by
  refine ⟨extraer_eq_ok, ⟨?_, ?_⟩, ?_, ?_, ?_, ?_⟩
  · rintro ⟨e, he⟩
    cases hr : revisionSectionMatch t.data with
    | some b =>
      rw [extraer_eq_ok (Or.inl (by rw [hr]; rfl))] at he
      simp at he
    | none =>
      cases hc : contaminantesSectionMatch t.data with
      | some b =>
        rw [extraer_eq_ok (Or.inr (by rw [hc]; rfl))] at he
        simp at he
      | none => exact ⟨rfl, rfl⟩
  · rintro ⟨h1, h2⟩
    exact ⟨certMissingMsg, extraer_eq_error h1 h2⟩
  · intro h
    rw [getD_datosOf_fecha]
    unfold fechaOf
    rw [h]
  · intro h
    rw [getD_datosOf_planta]
    unfold plantaOf
    rw [h]
  · intro h
    rw [getD_datosOf_placa]
    unfold placaOf
    rw [h]
  · intro h
    rw [getD_datosOf_folio]
    unfold folioOf
    rw [h]

/-- C4 witness: a text that is only the revisión-técnica title extracts
normally with every fixed field empty. -/
theorem extraer_never_field_throw_witness :
    extraerDatosCRT "CERTIFICADO REVISIÓN TÉCNICA" =
      .ok (datosOf "CERTIFICADO REVISIÓN TÉCNICA".data) ∧
    getD (datosOf "CERTIFICADO REVISIÓN TÉCNICA".data) "Fecha de Revisión" = "" := by
  have h := extraer_never_field_throw "CERTIFICADO REVISIÓN TÉCNICA"
  exact ⟨h.1 (Or.inl (by decide)), h.2.2.1 (by decide)⟩

/-- C3: every success entry of `procesarPDFCRT` carries exactly the seven
Excel columns as keys, in the generator's order, each key present (conditional
fields included, possibly with an empty value). -/
theorem procesar_success_schema (t n : String) (r : Datos)
    (h : procesarPDFCRT t n = .ok r) :
    r.map Prod.fst = excelHeaders ∧
    (excelHeaders.all fun k => (r.find? (fun p => p.1 == k)).isSome) = true := by
  unfold procesarPDFCRT at h
  cases hex : extraerDatosCRT t with
  | error e =>
    rw [hex] at h
    simp only [Bind.bind, Except.bind] at h
    simp at h
  | ok d =>
    rw [hex] at h
    simp only [Bind.bind, Except.bind] at h
    cases hv : bestEffortValidationCRT d n with
    | error e2 =>
      rw [hv] at h
      simp at h
    | ok d2 =>
      rw [hv] at h
      simp only [Except.ok.injEq] at h
      subst h
      constructor
      · simp [excelHeaders]
      · simp [excelHeaders]

/-- C3 witness: a concrete successful run instantiating the schema theorem. -/
theorem procesar_success_schema_witness :
    ([("Nombre PDF", "c.pdf"), ("Fecha de Revisión", "2 MAYO 2025"),
      ("Planta", "B2"), ("Placa Patente", "XY12"),
      ("Válido Hasta Revisión Técnica", "MAYO 2026"),
      ("Válido Hasta Contaminantes", ""), ("Folio", "N°B77")].map Prod.fst =
        excelHeaders) ∧
    (excelHeaders.all fun k =>
      (([("Nombre PDF", "c.pdf"), ("Fecha de Revisión", "2 MAYO 2025"),
         ("Planta", "B2"), ("Placa Patente", "XY12"),
         ("Válido Hasta Revisión Técnica", "MAYO 2026"),
         ("Válido Hasta Contaminantes", ""),
         ("Folio", "N°B77")] : Datos).find? (fun p => p.1 == k)).isSome) = true :=
  procesar_success_schema
    "FECHA REVISIÓN: 2 MAYO 2025 PLANTA: B2 PLACA PATENTE XY12 N°B77 CERTIFICADO REVISIÓN TÉCNICA VÁLIDO HASTA MAYO 2026 x"
    "c.pdf" _ (by rfl)

/-- C9: `generarExcel` throws on an empty record list; otherwise the produced
grid has the seven fixed headers as its first row and, for every record index
`i`, row `i+2` holds that record's value for each header in order; a missing
key or a `null` value renders as the empty string. -/
theorem generar_excel_grid :
    (generarExcel [] = .error "No hay registros para generar el Excel.") ∧
    (∀ rs : List Registro, rs ≠ [] →
       ∃ grid, generarExcel rs = .ok grid ∧
         grid.length = rs.length + 1 ∧
         grid[0]? = some excelHeaders ∧
         (∀ i, i < rs.length →
           grid[i + 1]? = some (excelHeaders.map (cellValue (rs.getD i []))))) ∧
    (∀ (r : Registro) (k : String),
       r.find? (fun p => p.1 == k) = none → cellValue r k = "") ∧
    (∀ (r : Registro) (k k' : String),
       r.find? (fun p => p.1 == k) = some (k', none) → cellValue r k = "") := by
  refine ⟨by rfl, ?_, ?_, ?_⟩
  · intro rs hne
    have hlen : (rs.length == 0) = false := by
      simp [hne]
    refine ⟨excelHeaders :: rs.map (fun r => excelHeaders.map (cellValue r)), ?_, ?_, by simp, ?_⟩
    · unfold generarExcel
      rw [hlen]
      simp
    · simp
    · intro i hi
      have h1 : (i + 1) - 1 = i := rfl
      simp only [List.getElem?_cons_succ, List.getElem?_map]
      rw [List.getElem?_eq_getElem hi]
      simp [List.getD, List.getElem?_eq_getElem hi]
  · intro r k h
    unfold cellValue
    rw [h]
  · intro r k k' h
    unfold cellValue
    rw [h]

/-- C9 witness: the non-empty branch of the theorem instantiated on a
one-record list containing a `null` value. -/
theorem generar_excel_grid_witness :
    ∃ grid, generarExcel [[("Nombre PDF", some "a.pdf"), ("Folio", none)]] = .ok grid ∧
      grid.length = 2 ∧ grid[0]? = some excelHeaders ∧
      (∀ i, i < 1 →
        grid[i + 1]? = some (excelHeaders.map
          (cellValue ([[("Nombre PDF", some "a.pdf"), ("Folio", none)]].getD i [])))) := by
  have h := generar_excel_grid.2.1 [[("Nombre PDF", some "a.pdf"), ("Folio", none)]]
    (by decide)
  exact h

/-- C10: `MAX_FILE_SIZE` is 5242880 when the environment variable is unset or
empty, and otherwise is exactly the base-10 `parseInt` of the variable; it
depends on no other input. -/
theorem max_file_size_config :
    MAX_FILE_SIZE none = some 5242880 ∧
    MAX_FILE_SIZE (some "") = some 5242880 ∧
    (∀ s : String, s ≠ "" → MAX_FILE_SIZE (some s) = jsParseInt10 s) := by
  refine ⟨by decide, by decide, ?_⟩
  intro s hs
  have hbeq : (s == "") = false := by simp [hs]
  unfold MAX_FILE_SIZE
  simp [hbeq]

/-- C10 witness: a set, non-empty variable is parsed as base-10. -/
theorem max_file_size_config_witness :
    MAX_FILE_SIZE (some "1048576") = some 1048576 := by
  have h := max_file_size_config.2.2 "1048576" (by decide)
  rw [h]
  decide

end Crt

namespace Batch

open Crt

/-- Length of the emitted event stream. -/
lemma mkEvents_length (tasks : List BatchTask) (total : Nat) :
    ∀ (os ts : List Nat) (c s f : Nat), os.length = ts.length →
      (mkEvents tasks total os ts c s f).length = os.length := by
  intro os
  induction os with
  | nil => intro ts c s f h; cases ts <;> simp [mkEvents]
  | cons i os ih =>
    intro ts c s f h
    cases ts with
    | nil => simp at h
    | cons t ts' =>
      simp only [mkEvents, List.length_cons]
      rw [ih ts' _ _ _ (by simpa using h)]

/-- The sequence numbers of the events are consecutive, starting after the
accumulated completion count. -/
lemma mkEvents_seq_map (tasks : List BatchTask) (total : Nat) :
    ∀ (os ts : List Nat) (c s f : Nat), os.length = ts.length →
      (mkEvents tasks total os ts c s f).map (fun e => e.sequence) =
        List.range' (c + 1) os.length := by
  intro os
  induction os with
  | nil => intro ts c s f h; cases ts <;> simp [mkEvents]
  | cons i os ih =>
    intro ts c s f h
    cases ts with
    | nil => simp at h
    | cons t ts' =>
      simp only [mkEvents, List.map_cons, List.length_cons, List.range'_succ]
      rw [ih ts' (c + 1) _ _ (by simpa using h)]

/-- Shape of the `k`-th emitted event. -/
lemma mkEvents_getElem (tasks : List BatchTask) (total : Nat) :
    ∀ (os ts : List Nat) (c s f k : Nat), os.length = ts.length → k < os.length →
      ∃ ev, (mkEvents tasks total os ts c s f)[k]? = some ev ∧
        ev.sequence = c + k + 1 ∧ ev.elapsedMs = ts.getD k 0 ∧
        ev.estimatedRemainingMs = etaOf (ts.getD k 0) (c + k + 1) total := by
  intro os
  induction os with
  | nil => intro ts c s f k h hk; simp at hk
  | cons i os ih =>
    intro ts c s f k h hk
    cases ts with
    | nil => simp at h
    | cons t ts' =>
      cases k with
      | zero =>
        simp only [mkEvents, List.getElem?_cons_zero]
        exact ⟨_, rfl, rfl, rfl, rfl⟩
      | succ k' =>
        simp only [mkEvents, List.getElem?_cons_succ]
        obtain ⟨ev, hev, h1, h2, h3⟩ :=
          ih ts' (c + 1) (if (taskOutcome (tasks.getD i ⟨"", ""⟩)).isOk then s + 1 else s)
            (if (taskOutcome (tasks.getD i ⟨"", ""⟩)).isOk then f else f + 1) k'
            (by simpa using h) (by simpa using hk)
        refine ⟨ev, hev, by rw [h1]; omega, ?_, ?_⟩
        · rw [h2, List.getD_cons_succ]
        · have harith : c + (k' + 1) + 1 = c + 1 + k' + 1 := by omega
          rw [List.getD_cons_succ, harith]
          exact h3

/-- Every emitted event satisfies the ETA formula on its own fields. -/
lemma mkEvents_eta_mem (tasks : List BatchTask) (total : Nat) :
    ∀ (os ts : List Nat) (c s f : Nat) (e : ProgressEvent),
      e ∈ mkEvents tasks total os ts c s f →
      e.estimatedRemainingMs = etaOf e.elapsedMs e.sequence total := by
  intro os
  induction os with
  | nil => intro ts c s f e he; cases ts <;> simp [mkEvents] at he
  | cons i os ih =>
    intro ts c s f e he
    cases ts with
    | nil => simp [mkEvents] at he
    | cons t ts' =>
      simp only [mkEvents, List.mem_cons] at he
      rcases he with he | he
      · subst he; rfl
      · exact ih ts' _ _ _ e he

/-- The (task, outcome) pair of submission index `i`, a pure function of the
submitted batch. -/
def canonicalOutcome (tasks : List BatchTask) (i : Nat) :
    BatchTask × Except String Datos :=
  (tasks.getD i ⟨"", ""⟩, taskOutcome (tasks.getD i ⟨"", ""⟩))

/-- Looking an index up in the completion-ordered store finds its (unique)
entry, whichever position it completed at. -/
lemma completionLog_find? (tasks : List BatchTask) :
    ∀ (order : List Nat) (i : Nat), i ∈ order →
      (completionLog tasks order).find? (fun e => e.1 == i) =
        some (i, tasks.getD i ⟨"", ""⟩, taskOutcome (tasks.getD i ⟨"", ""⟩)) := by
  intro order
  induction order with
  | nil => intro i h; simp at h
  | cons j os ih =>
    intro i h
    by_cases hj : j = i
    · subst hj
      unfold completionLog
      simp only [List.map_cons]
      rw [List.find?_cons_of_pos _ (by simp)]
    · have hi : i ∈ os := by
        rcases List.mem_cons.mp h with h' | h'
        · exact absurd h'.symm hj
        · exact h'
      have hrec := ih i hi
      unfold completionLog at hrec ⊢
      simp only [List.map_cons]
      rw [List.find?_cons_of_neg _ (by simp [hj])]
      exact hrec

/-- A `filterMap` that never filters is a `map`. -/
lemma filterMap_eq_map_of {α β : Type} (l : List α) (f : α → Option β) (g : α → β)
    (h : ∀ a ∈ l, f a = some (g a)) : l.filterMap f = l.map g := by
  induction l with
  | nil => rfl
  | cons a l ih =>
    have h1 := h a (List.mem_cons_self a l)
    simp [List.filterMap_cons, h1, ih (fun b hb => h b (List.mem_cons_of_mem a hb))]

/-- When every submission index completed, the emission scan reproduces the
canonical submission-ordered outcome list. -/
lemma emitOrdered_eq (tasks : List BatchTask) (order : List Nat)
    (h : ∀ i, i < tasks.length → i ∈ order) :
    emitOrdered tasks order = (List.range tasks.length).map (canonicalOutcome tasks) := by
  unfold emitOrdered
  refine filterMap_eq_map_of _ _ _ ?_
  intro i hi
  rw [completionLog_find? tasks order i (h i (List.mem_range.mp hi))]
  rfl

/-- Every outcome lands in exactly one of the two report buckets. -/
lemma filterMap_ok_err_length :
    ∀ l : List (BatchTask × Except String Datos),
      (l.filterMap okEntry).length + (l.filterMap errEntry).length = l.length := by
  intro l
  induction l with
  | nil => rfl
  | cons e l ih =>
    obtain ⟨tk, out⟩ := e
    cases out with
    | ok d =>
      simp only [List.filterMap_cons, okEntry, errEntry, List.length_cons]
      omega
    | error m =>
      simp only [List.filterMap_cons, okEntry, errEntry, List.length_cons]
      omega

/-- A completion order that is a permutation of the submission indices
contains every submission index. -/
lemma perm_mem {tasks : List BatchTask} {order : List Nat}
    (horder : order.Perm (List.range tasks.length)) :
    ∀ i, i < tasks.length → i ∈ order := by
  intro i hi
  exact horder.mem_iff.mpr (List.mem_range.mpr hi)

/-- C5: for every batch the emitted sequence numbers are exactly `1..N` in
order — no gaps, no duplicates — whatever the completion order; the `k`-th
emitted event carries sequence number `k+1`, the count of completions so far,
not the completing task's submission index. -/
theorem batch_sequence_numbers (tasks : List BatchTask) (order times : List Nat)
    (horder : order.Perm (List.range tasks.length))
    (htimes : times.length = tasks.length) :
    (batchEvents tasks order times).map (fun e => e.sequence) =
      List.range' 1 tasks.length ∧
    ∀ k (hk : k < (batchEvents tasks order times).length),
      (batchEvents tasks order times)[k].sequence = k + 1 := by
  have hlen : order.length = tasks.length := by
    simpa using horder.length_eq
  have hlents : order.length = times.length := by omega
  constructor
  · unfold batchEvents
    rw [mkEvents_seq_map tasks tasks.length order times 0 0 0 hlents, hlen]
  · intro k hk
    have hk' : k < order.length := by
      have := mkEvents_length tasks tasks.length order times 0 0 0 hlents
      unfold batchEvents at hk
      omega
    obtain ⟨ev, hev, h1, _, _⟩ :=
      mkEvents_getElem tasks tasks.length order times 0 0 0 k hlents hk'
    unfold batchEvents at hk ⊢
    have : (mkEvents tasks tasks.length order times 0 0 0)[k]? =
        some ((mkEvents tasks tasks.length order times 0 0 0)[k]) :=
      List.getElem?_eq_getElem hk
    rw [this] at hev
    have hev' := Option.some.inj hev
    rw [hev', h1]
    omega

/-- C5 witness: a two-document batch completing in reversed order still emits
sequence numbers 1, 2. -/
theorem batch_sequence_numbers_witness :
    (batchEvents [⟨"a.pdf", ""⟩, ⟨"b.pdf", ""⟩] [1, 0] [5, 9]).map
      (fun e => e.sequence) = List.range' 1 2 :=
  (batch_sequence_numbers [⟨"a.pdf", ""⟩, ⟨"b.pdf", ""⟩] [1, 0] [5, 9]
    (by decide) (by decide)).1

/-- C6: for every batch of `N` documents whose completion order is a
permutation of the submission indices, the report counts every document
exactly once: `totalProcessed = N` and `totalSuccess + totalFailure =
totalProcessed`. -/
theorem batch_report_totals (tasks : List BatchTask) (order : List Nat)
    (horder : order.Perm (List.range tasks.length)) :
    (buildReport tasks order).totalProcessed = tasks.length ∧
    (buildReport tasks order).totalSuccess + (buildReport tasks order).totalFailure =
      (buildReport tasks order).totalProcessed := by
  have hem := emitOrdered_eq tasks order (perm_mem horder)
  constructor
  · unfold buildReport
    simp [hem]
  · unfold buildReport
    simp only [hem]
    exact filterMap_ok_err_length _

/-- C6 witness: a two-document batch (one success-shaped, one failing) has
`totalProcessed = 2`. -/
theorem batch_report_totals_witness :
    (buildReport [⟨"a.pdf", ""⟩, ⟨"b.pdf", ""⟩] [1, 0]).totalProcessed = 2 ∧
    (buildReport [⟨"a.pdf", ""⟩, ⟨"b.pdf", ""⟩] [1, 0]).totalSuccess +
      (buildReport [⟨"a.pdf", ""⟩, ⟨"b.pdf", ""⟩] [1, 0]).totalFailure =
      (buildReport [⟨"a.pdf", ""⟩, ⟨"b.pdf", ""⟩] [1, 0]).totalProcessed :=
  batch_report_totals [⟨"a.pdf", ""⟩, ⟨"b.pdf", ""⟩] [1, 0] (by decide)

/-- C7: every emitted event's ETA equals
`elapsedMs / completed * (total - completed)`; once `completed = total` the
reported ETA is 0; and with a uniform per-task latency `L` the `k`-th event's
ETA is `L * (N - (k+1))`, which trends monotonically down to 0. -/
theorem batch_eta_formula (tasks : List BatchTask) (order times : List Nat) (L : Nat)
    (horder : order.Perm (List.range tasks.length))
    (_htimes : times.length = tasks.length) :
    (∀ e ∈ batchEvents tasks order times,
       e.estimatedRemainingMs = e.elapsedMs / e.sequence * (tasks.length - e.sequence)) ∧
    (∀ e ∈ batchEvents tasks order times,
       e.sequence = tasks.length → e.estimatedRemainingMs = 0) ∧
    (∀ k (hk : k < (batchEvents tasks order (uniformTimes tasks.length L)).length),
       (batchEvents tasks order (uniformTimes tasks.length L))[k].estimatedRemainingMs =
         L * (tasks.length - (k + 1))) ∧
    (∀ j k (hj : j < (batchEvents tasks order (uniformTimes tasks.length L)).length)
       (hk : k < (batchEvents tasks order (uniformTimes tasks.length L)).length),
       j ≤ k →
       (batchEvents tasks order (uniformTimes tasks.length L))[k].estimatedRemainingMs ≤
         (batchEvents tasks order (uniformTimes tasks.length L))[j].estimatedRemainingMs) := by
  have hlen : order.length = tasks.length := by
    simpa using horder.length_eq
  have huni : order.length = (uniformTimes tasks.length L).length := by
    simp [uniformTimes, hlen]
  have hlenev : (batchEvents tasks order (uniformTimes tasks.length L)).length =
      order.length := by
    unfold batchEvents
    exact mkEvents_length tasks tasks.length order _ 0 0 0 huni
  have hiii : ∀ k (hk : k < (batchEvents tasks order (uniformTimes tasks.length L)).length),
      (batchEvents tasks order (uniformTimes tasks.length L))[k].estimatedRemainingMs =
        L * (tasks.length - (k + 1)) := by
    intro k hk
    have hk' : k < order.length := by omega
    have hkn : k < tasks.length := by omega
    obtain ⟨ev, hev, h1, h2, h3⟩ :=
      mkEvents_getElem tasks tasks.length order (uniformTimes tasks.length L) 0 0 0 k
        huni hk'
    have hgd : (uniformTimes tasks.length L).getD k 0 = (k + 1) * L := by
      unfold uniformTimes
      simp [List.getD, List.getElem?_map, List.getElem?_range hkn]
    have hsome : (batchEvents tasks order (uniformTimes tasks.length L))[k]? =
        some ((batchEvents tasks order (uniformTimes tasks.length L))[k]) :=
      List.getElem?_eq_getElem hk
    unfold batchEvents at hsome ⊢
    rw [hsome] at hev
    have hev' := Option.some.inj hev
    rw [hev', h3, hgd]
    unfold etaOf
    have hz : 0 + k + 1 = k + 1 := by omega
    rw [hz, Nat.mul_div_cancel_left L (by omega)]
  refine ⟨?_, ?_, hiii, ?_⟩
  · intro e he
    exact mkEvents_eta_mem tasks tasks.length order times 0 0 0 e he
  · intro e he hseq
    have := mkEvents_eta_mem tasks tasks.length order times 0 0 0 e he
    rw [this, hseq]
    unfold etaOf
    simp
  · intro j k hj hk hjk
    rw [hiii j hj, hiii k hk]
    exact Nat.mul_le_mul_left L (Nat.sub_le_sub_left (by omega) tasks.length)

/-- C7 witness: with two tasks at uniform latency 5 the first event's ETA is
5 and the second's is 0. -/
theorem batch_eta_formula_witness :
    (batchEvents [⟨"a.pdf", ""⟩, ⟨"b.pdf", ""⟩] [1, 0]
        (uniformTimes 2 5))[0].estimatedRemainingMs = 5 * (2 - (0 + 1)) := by
  have h := batch_eta_formula [⟨"a.pdf", ""⟩, ⟨"b.pdf", ""⟩] [1, 0] [5, 9] 5
    (by decide) (by decide)
  exact h.2.2.1 0 (by decide)

/-- C8: the per-document pipeline is a pure function of the inputs, so the
final report content is identical for any two completion schedules of the
same batch: both equal the canonical submission-ordered fold of the
per-document outcomes. -/
theorem batch_report_schedule_independent (tasks : List BatchTask) (o1 o2 : List Nat)
    (h1 : o1.Perm (List.range tasks.length))
    (h2 : o2.Perm (List.range tasks.length)) :
    buildReport tasks o1 = buildReport tasks o2 ∧
    (buildReport tasks o1).exitosos =
      ((List.range tasks.length).map (canonicalOutcome tasks)).filterMap okEntry ∧
    (buildReport tasks o1).fallidos =
      ((List.range tasks.length).map (canonicalOutcome tasks)).filterMap errEntry := by
  have he1 := emitOrdered_eq tasks o1 (perm_mem h1)
  have he2 := emitOrdered_eq tasks o2 (perm_mem h2)
  refine ⟨?_, ?_, ?_⟩
  · unfold buildReport
    rw [he1, he2]
  · unfold buildReport
    rw [he1]
  · unfold buildReport
    rw [he1]

/-- C8 witness: reversing the completion order of a two-document batch leaves
the report unchanged. -/
theorem batch_report_schedule_independent_witness :
    buildReport [⟨"a.pdf", ""⟩, ⟨"b.pdf", ""⟩] [1, 0] =
      buildReport [⟨"a.pdf", ""⟩, ⟨"b.pdf", ""⟩] [0, 1] :=
  (batch_report_schedule_independent [⟨"a.pdf", ""⟩, ⟨"b.pdf", ""⟩] [1, 0] [0, 1]
    (by decide) (by decide)).1

end Batch
